import Mathlib

/-!
Verification development for the data-acquisition layer of
`scripts/hna/build_hna_data.py` (Housing-Data-Analytics).

The network, the filesystem and the pandas engine are external collaborators;
they enter the model as explicit oracle parameters (attempt-indexed request
outcomes, file contents, a parse function).  Everything else is translated
directly from the Python source.  Machine-level concerns (float sleep values)
are modelled over `ℚ`, which is exact on the concrete values the code uses.
-/

/-- Python exception values crossing the boundaries we model
(`requests.RequestException` and the initial `RuntimeError("No attempts made")`
of the transport loop). -/
inductive PyExc
  | requestException (msg : String)
  | runtimeError (msg : String)
deriving DecidableEq

/-- An exception raised by the pandas collaborator: a parse failure of
`pd.read_csv` or an `IndexingError` from boolean-Series indexing. -/
structure PError where
  msg : String
deriving DecidableEq

/-- Minimal JSON value model, enough for `resp.json()` results and the
`isinstance(data, list)` check in `_census_get`. -/
inductive Json
  | null
  | bool (b : Bool)
  | num (n : Int)
  | str (s : String)
  | arr (elems : List Json)
  | obj (fields : List (String × Json))

/-- `isinstance(data, list)` on a `Json` value. -/
def Json.isArr : Json → Bool
  | .arr _ => true
  | _ => false

/-! ## Transport (`http_get_text` / `http_get_json`)

Both Python functions run the identical retry loop

```
for attempt in range(retries):
    try: ... return ...
    except requests.RequestException as exc:
        last_exc = exc
        if attempt < retries - 1:
            wait = backoff ** attempt
            time.sleep(wait)
```

differing only in what happens on exhaustion (`raise last_exc` for the text
variant, `return None` for the JSON variant).  `get` is the oracle giving the
outcome of the `requests.get` call on each attempt; the result records the
returned/raised value, the number of attempts made, and the list of sleep
durations in order. -/

def retryLoop {α : Type} (get : Nat → Except PyExc α) (retries : Nat) (backoff : ℚ)
    (attempt : Nat) (lastExc : PyExc) (sleeps : List ℚ) : Except PyExc α × Nat × List ℚ :=
  if _h : attempt < retries then
    match get attempt with
    | .ok v => (.ok v, attempt + 1, sleeps)
    | .error e =>
      if attempt < retries - 1 then
        retryLoop get retries backoff (attempt + 1) e (sleeps ++ [backoff ^ attempt])
      else
        retryLoop get retries backoff (attempt + 1) e sleeps
  else
    (.error lastExc, attempt, sleeps)
termination_by retries - attempt
decreasing_by
  all_goals omega

/-- `http_get_text(url, timeout, retries, backoff)`: returns the body on the
first successful attempt, raises the last exception (`Except.error`) after all
retries are exhausted. -/
def http_get_text (get : Nat → Except PyExc String) (retries : Nat) (backoff : ℚ) :
    Except PyExc String × Nat × List ℚ :=
  retryLoop get retries backoff 0 (.runtimeError "No attempts made") []

/-- `http_get_json(url, timeout, retries, backoff)`: same loop, but on
exhaustion it logs and returns the `None` sentinel instead of raising. -/
def http_get_json (get : Nat → Except PyExc Json) (retries : Nat) (backoff : ℚ) :
    Option Json × Nat × List ℚ :=
  match retryLoop get retries backoff 0 (.runtimeError "No attempts made") [] with
  | (.ok v, n, s) => (some v, n, s)
  | (.error _, n, s) => (none, n, s)

/-- When every attempt up to `retries` fails, the loop performs exactly
`retries` attempts, sleeps `backoff ^ i` after every failed attempt except the
final one, and ends with the last exception. -/
theorem retryLoop_all_fail {α : Type} (get : Nat → Except PyExc α) (retries : Nat)
    (backoff : ℚ) (e : Nat → PyExc) (hget : ∀ i, i < retries → get i = .error (e i)) :
    ∀ k attempt lastExc sleeps, attempt + k = retries →
      retryLoop get retries backoff attempt lastExc sleeps =
        (.error (if k = 0 then lastExc else e (retries - 1)), retries,
          sleeps ++ (List.range' attempt (k - 1)).map (fun i => backoff ^ i)) := by
  intro k
  induction k with
  | zero =>
    intro attempt lastExc sleeps hk
    rw [retryLoop]
    simp [show ¬ (attempt < retries) by omega, show attempt = retries by omega]
  | succ k ih =>
    intro attempt lastExc sleeps hk
    rw [retryLoop]
    have hlt : attempt < retries := by omega
    rw [dif_pos hlt, hget attempt hlt]
    dsimp only
    by_cases hk1 : k = 0
    · subst hk1
      have hnot : ¬ (attempt < retries - 1) := by omega
      rw [if_neg hnot]
      rw [ih (attempt + 1) (e attempt) sleeps (by omega)]
      simp [show retries - 1 = attempt by omega]
    · have hyes : attempt < retries - 1 := by omega
      rw [if_pos hyes]
      rw [ih (attempt + 1) (e attempt) (sleeps ++ [backoff ^ attempt]) (by omega)]
      have hrange : List.range' attempt (k + 1 - 1) = attempt :: List.range' (attempt + 1) (k - 1) := by
        have : k + 1 - 1 = (k - 1) + 1 := by omega
        rw [this, List.range'_succ]
      rw [if_neg hk1, hrange]
      simp

/-- Claim C3: when every attempt fails and `retries ≥ 1`, Transport makes
exactly `retries` attempts, sleeping `backoff ^ attempt` seconds after each
failed attempt except the final one; on exhaustion the text variant raises the
last exception while the JSON variant returns the `None` sentinel. -/
theorem transport_retry_exhaustion (get_t : Nat → Except PyExc String)
    (get_j : Nat → Except PyExc Json) (retries : Nat) (backoff : ℚ)
    (e_t e_j : Nat → PyExc) (hret : 1 ≤ retries)
    (hft : ∀ i, i < retries → get_t i = .error (e_t i))
    (hfj : ∀ i, i < retries → get_j i = .error (e_j i)) :
    http_get_text get_t retries backoff =
      (.error (e_t (retries - 1)), retries,
        (List.range (retries - 1)).map (fun i => backoff ^ i)) ∧
    http_get_json get_j retries backoff =
      (none, retries, (List.range (retries - 1)).map (fun i => backoff ^ i)) := by
  have ht := retryLoop_all_fail get_t retries backoff e_t hft retries 0
    (.runtimeError "No attempts made") [] (by omega)
  have hj := retryLoop_all_fail get_j retries backoff e_j hfj retries 0
    (.runtimeError "No attempts made") [] (by omega)
  rw [if_neg (by omega)] at ht hj
  constructor
  · rw [http_get_text, ht, List.range_eq_range']
    simp
  · rw [http_get_json, hj, List.range_eq_range']
    simp

/-- Concrete witness for C3: with `retries = 3`, `backoff = 2.0` and every
attempt failing, both variants make 3 attempts and sleep 1.0s then 2.0s, the
text variant ends with the exception and the JSON variant with `none`. -/
theorem transport_retry_exhaustion_witness :
    http_get_text (fun _ => .error (.requestException "boom")) 3 2 =
      (.error (.requestException "boom"), 3, [1, 2]) ∧
    http_get_json (fun _ => (.error (.requestException "boom") : Except PyExc Json)) 3 2 =
      (none, 3, [1, 2]) := by
  have h := transport_retry_exhaustion (fun _ => .error (.requestException "boom"))
    (fun _ => .error (.requestException "boom")) 3 2
    (fun _ => .requestException "boom") (fun _ => .requestException "boom")
    (by omega) (fun i _ => rfl) (fun i _ => rfl)
  have hr : (List.range (3 - 1)).map (fun i => (2 : ℚ) ^ i) = [1, 2] := by
    norm_num [List.range_succ]
  rw [hr] at h
  exact h

/-! ## Redactor (`redact`)

`re.sub(r"(key=)[^&\s]+", r"\1***", s)`: scanning left to right, every
occurrence of the literal `key=` followed by a non-empty run of characters
that are neither `&` nor whitespace has that run replaced by `***`; when the
pattern does not match at a position the scan advances one character. -/

/-- Python `\s` on the ASCII range. -/
def pyIsSpace (c : Char) : Bool :=
  c == ' ' || c == '\t' || c == '\n' || c == '\r' || c == '\x0b' || c == '\x0c'

/-- A character allowed inside the matched value, i.e. `[^&\s]`. -/
def isValChar (c : Char) : Bool := !(c == '&') && !(pyIsSpace c)

/-- Does the regex `(key=)[^&\s]+` match at the head of `l`: the literal
`key=` followed by a non-empty value run? -/
def keyMatch (l : List Char) : Bool :=
  (l.take 4 == ['k', 'e', 'y', '=']) && !((l.drop 4).takeWhile isValChar).isEmpty

/-- The substitution scan of `redact` over the character list, fuelled by the
remaining length so the recursion is structural: on a match, emit `key=***`
and resume after the matched value run; otherwise copy one character and
advance. -/
def redactGo : Nat → List Char → List Char
  | 0, l => l
  | _ + 1, [] => []
  | fuel + 1, c :: cs =>
    if keyMatch (c :: cs) then
      'k' :: 'e' :: 'y' :: '=' :: '*' :: '*' :: '*' ::
        redactGo fuel ((cs.drop 3).dropWhile isValChar)
    else
      c :: redactGo fuel cs

/-- The substitution scan at full fuel. -/
def redactList (l : List Char) : List Char := redactGo l.length l

/-- `redact(s)`: mask Census API keys in a log string. -/
def redact (s : String) : String := ⟨redactList s.data⟩

theorem redactGo_congr (f1 : Nat) : ∀ (l : List Char) (f2 : Nat), l.length ≤ f1 →
    l.length ≤ f2 → redactGo f1 l = redactGo f2 l := by
  induction f1 with
  | zero =>
    intro l f2 h1 _
    have hl : l = [] := List.length_eq_zero.mp (by omega)
    subst hl
    cases f2 <;> rfl
  | succ f1 ih =>
    intro l f2 h1 h2
    cases l with
    | nil => cases f2 <;> rfl
    | cons c cs =>
      cases f2 with
      | zero => simp at h2
      | succ f2 =>
        rw [redactGo, redactGo]
        by_cases hm : keyMatch (c :: cs) = true
        · rw [if_pos hm, if_pos hm]
          have hle : ((cs.drop 3).dropWhile isValChar).length ≤ cs.length := by
            have hd := (List.dropWhile_sublist (l := cs.drop 3) isValChar).length_le
            simp [List.length_drop] at hd
            omega
          rw [ih ((cs.drop 3).dropWhile isValChar) f2 (by simp at h1; omega)
            (by simp at h2; omega)]
        · rw [if_neg hm, if_neg hm]
          rw [ih cs f2 (by simp at h1; omega) (by simp at h2; omega)]

theorem redactList_nil : redactList [] = [] := rfl

theorem redactList_cons_match (c : Char) (cs : List Char) (h : keyMatch (c :: cs) = true) :
    redactList (c :: cs) = 'k' :: 'e' :: 'y' :: '=' :: '*' :: '*' :: '*' ::
      redactList ((cs.drop 3).dropWhile isValChar) := by
  unfold redactList
  show redactGo (cs.length + 1) (c :: cs) = _
  rw [redactGo, if_pos h]
  have hle : ((cs.drop 3).dropWhile isValChar).length ≤ cs.length := by
    have hd := (List.dropWhile_sublist (l := cs.drop 3) isValChar).length_le
    simp [List.length_drop] at hd
    omega
  rw [redactGo_congr cs.length _ _ hle le_rfl]

theorem redactList_cons_nomatch (c : Char) (cs : List Char) (h : keyMatch (c :: cs) = false) :
    redactList (c :: cs) = c :: redactList cs := by
  unfold redactList
  show redactGo (cs.length + 1) (c :: cs) = _
  rw [redactGo, if_neg (by rw [h]; exact Bool.false_ne_true)]

/-! ## Census ACS helpers (`_census_get`, `fetch_acs_profile`, `fetch_acs_s0801`)

The transport boundary is the oracle `net : String → Option Json`, giving the
`http_get_json` outcome for each URL (`none` is the exhaustion sentinel).
Log output is modelled structurally: one constructor per `log.*` call site. -/

def CENSUS_BASE : String := "https://api.census.gov/data"

/-- One constructor per log call in the Census helpers. -/
inductive CensusLog
  | request (url : String)
  | succeeded (fn : String) (dataset : String) (year : Int)
  | noData (fn : String) (dataset : String) (year : Int)
  | allFailed (fn : String) (geo : String)
deriving DecidableEq

def CensusLog.isSucceeded : CensusLog → Bool
  | .succeeded _ _ _ => true
  | _ => false

def CensusLog.isRequest : CensusLog → Bool
  | .request _ => true
  | _ => false

def CensusLog.isAllFailed : CensusLog → Bool
  | .allFailed _ _ => true
  | _ => false

@[simp] theorem isSucceeded_request (u : String) : (CensusLog.request u).isSucceeded = false := rfl
@[simp] theorem isSucceeded_noData (f a : String) (y : Int) :
    (CensusLog.noData f a y).isSucceeded = false := rfl
@[simp] theorem isSucceeded_allFailed (f g : String) :
    (CensusLog.allFailed f g).isSucceeded = false := rfl
@[simp] theorem isSucceeded_succeeded (f a : String) (y : Int) :
    (CensusLog.succeeded f a y).isSucceeded = true := rfl
@[simp] theorem isRequest_request (u : String) : (CensusLog.request u).isRequest = true := rfl
@[simp] theorem isRequest_noData (f a : String) (y : Int) :
    (CensusLog.noData f a y).isRequest = false := rfl
@[simp] theorem isRequest_allFailed (f g : String) :
    (CensusLog.allFailed f g).isRequest = false := rfl
@[simp] theorem isRequest_succeeded (f a : String) (y : Int) :
    (CensusLog.succeeded f a y).isRequest = false := rfl
@[simp] theorem isAllFailed_request (u : String) : (CensusLog.request u).isAllFailed = false := rfl
@[simp] theorem isAllFailed_noData (f a : String) (y : Int) :
    (CensusLog.noData f a y).isAllFailed = false := rfl
@[simp] theorem isAllFailed_allFailed (f g : String) :
    (CensusLog.allFailed f g).isAllFailed = true := rfl
@[simp] theorem isAllFailed_succeeded (f a : String) (y : Int) :
    (CensusLog.succeeded f a y).isAllFailed = false := rfl

/-- `params = f"get={vars}&for={geo}"`, plus `&key=` when a key is given. -/
def census_params (vars geo : String) (key : Option String) : String :=
  match key with
  | some k => "get=" ++ vars ++ "&for=" ++ geo ++ "&key=" ++ k
  | none => "get=" ++ vars ++ "&for=" ++ geo

/-- `url = f"{CENSUS_BASE}/{year}/{dataset}?{params}"`. -/
def census_url (dataset : String) (year : Int) (vars geo : String)
    (key : Option String) : String :=
  CENSUS_BASE ++ "/" ++ toString year ++ "/" ++ dataset ++ "?" ++ census_params vars geo key

/-- `_census_get`: low-level Census API call; returns the parsed JSON only
when it is a list, `None` otherwise.  The request is logged with the URL
passed through the Redactor. -/
def _census_get (net : String → Option Json) (dataset : String) (year : Int)
    (vars geo : String) (key : Option String) : Option Json × List CensusLog :=
  match net (census_url dataset year vars geo key) with
  | none => (none, [.request (redact (census_url dataset year vars geo key))])
  | some d =>
    if d.isArr then (some d, [.request (redact (census_url dataset year vars geo key))])
    else (none, [.request (redact (census_url dataset year vars geo key))])

/-- The result component of one fallback-chain entry. -/
def censusTry (net : String → Option Json) (vars geo : String) (key : Option String)
    (p : String × Int) : Option Json :=
  (_census_get net p.1 p.2 vars geo key).1

/-- The `for dataset, yr in attempts` loop shared verbatim by
`fetch_acs_profile` and `fetch_acs_s0801` (each Python function carries its
own copy of this loop; only `fn` — the name used in its log lines — and the
attempts list differ). -/
def acs_fallback_loop (fn : String) (net : String → Option Json) (vars geo : String)
    (key : Option String) : List (String × Int) → Option Json × List CensusLog
  | [] => (none, [.allFailed fn geo])
  | (dataset, yr) :: rest =>
    match (_census_get net dataset yr vars geo key).1 with
    | some d => (some d, (_census_get net dataset yr vars geo key).2 ++ [.succeeded fn dataset yr])
    | none =>
      let r := acs_fallback_loop fn net vars geo key rest
      (r.1, (_census_get net dataset yr vars geo key).2 ++ [.noData fn dataset yr] ++ r.2)

/-- The fallback chain of `fetch_acs_profile`:
ACS1/profile → ACS1/subject → ACS5/profile → ACS5/subject. -/
def profile_attempts (year : Int) : List (String × Int) :=
  [("acs/acs1/profile", year), ("acs/acs1/subject", year),
   ("acs/acs5/profile", year), ("acs/acs5/subject", year)]

/-- The fallback chain of `fetch_acs_s0801`: ACS1/subject → ACS5/subject. -/
def s0801_attempts (year : Int) : List (String × Int) :=
  [("acs/acs1/subject", year), ("acs/acs5/subject", year)]

/-- `fetch_acs_profile(geo, vars, year, key)`. -/
def fetch_acs_profile (net : String → Option Json) (geo vars : String) (year : Int)
    (key : Option String) : Option Json × List CensusLog :=
  acs_fallback_loop "fetch_acs_profile" net vars geo key (profile_attempts year)

/-- `fetch_acs_s0801(geo, vars, year, key)`. -/
def fetch_acs_s0801 (net : String → Option Json) (geo vars : String) (year : Int)
    (key : Option String) : Option Json × List CensusLog :=
  acs_fallback_loop "fetch_acs_s0801" net vars geo key (s0801_attempts year)

/-- The log lines produced by a run of failed fallback entries: a redacted
request line and a no-data warning per entry. -/
def failLogs (fn : String) (vars geo : String) (key : Option String)
    (attempts : List (String × Int)) : List CensusLog :=
  attempts.foldr
    (fun p acc =>
      .request (redact (census_url p.1 p.2 vars geo key)) :: .noData fn p.1 p.2 :: acc)
    []

theorem _census_get_snd (net : String → Option Json) (dataset : String) (year : Int)
    (vars geo : String) (key : Option String) :
    (_census_get net dataset year vars geo key).2 =
      [.request (redact (census_url dataset year vars geo key))] := by
  unfold _census_get
  rcases hnet : net (census_url dataset year vars geo key) with _ | d
  · simp [hnet]
  · by_cases hi : d.isArr <;> simp [hnet, hi]

theorem acs_loop_all_fail (fn : String) (net : String → Option Json) (vars geo : String)
    (key : Option String) (attempts : List (String × Int))
    (h : ∀ p ∈ attempts, censusTry net vars geo key p = none) :
    acs_fallback_loop fn net vars geo key attempts =
      (none, failLogs fn vars geo key attempts ++ [.allFailed fn geo]) := by
  induction attempts with
  | nil => rfl
  | cons p rest ih =>
    obtain ⟨dataset, yr⟩ := p
    have hp : (_census_get net dataset yr vars geo key).1 = none :=
      h (dataset, yr) (List.mem_cons_self _ _)
    rw [acs_fallback_loop, hp]
    rw [ih (fun q hq => h q (List.mem_cons_of_mem _ hq))]
    simp [failLogs, _census_get_snd]

theorem acs_loop_first_success (fn : String) (net : String → Option Json)
    (vars geo : String) (key : Option String) (pre : List (String × Int))
    (p : String × Int) (post : List (String × Int)) (d : Json)
    (hpre : ∀ q ∈ pre, censusTry net vars geo key q = none)
    (hp : censusTry net vars geo key p = some d) :
    acs_fallback_loop fn net vars geo key (pre ++ p :: post) =
      (some d, failLogs fn vars geo key pre ++
        [.request (redact (census_url p.1 p.2 vars geo key)), .succeeded fn p.1 p.2]) := by
  induction pre with
  | nil =>
    obtain ⟨dataset, yr⟩ := p
    have hp1 : (_census_get net dataset yr vars geo key).1 = some d := hp
    rw [List.nil_append, acs_fallback_loop, hp1]
    simp [failLogs, _census_get_snd]
  | cons q rest ih =>
    obtain ⟨dataset, yr⟩ := q
    have hq : (_census_get net dataset yr vars geo key).1 = none :=
      hpre (dataset, yr) (List.mem_cons_self _ _)
    rw [List.cons_append, acs_fallback_loop, hq]
    rw [ih (fun q hq => hpre q (List.mem_cons_of_mem _ hq))]
    simp [failLogs, _census_get_snd]

theorem failLogs_cons (fn : String) (vars geo : String) (key : Option String)
    (p : String × Int) (rest : List (String × Int)) :
    failLogs fn vars geo key (p :: rest) =
      .request (redact (census_url p.1 p.2 vars geo key)) :: .noData fn p.1 p.2 ::
        failLogs fn vars geo key rest := rfl

theorem failLogs_filter (fn : String) (vars geo : String) (key : Option String)
    (attempts : List (String × Int)) :
    (failLogs fn vars geo key attempts).filter (·.isSucceeded) = [] ∧
    (failLogs fn vars geo key attempts).filter (·.isAllFailed) = [] ∧
    ((failLogs fn vars geo key attempts).filter (·.isRequest)).length = attempts.length := by
  induction attempts with
  | nil => simp [failLogs]
  | cons p rest ih =>
    rw [failLogs_cons]
    simp only [List.filter_cons, isSucceeded_request, isSucceeded_noData, isAllFailed_request,
      isAllFailed_noData, isRequest_request, isRequest_noData, Bool.false_eq_true, if_false,
      if_true, List.length_cons]
    exact ⟨ih.1, ih.2.1, by rw [ih.2.2]⟩

theorem acs_chain_success_filters (fn : String) (net : String → Option Json)
    (vars geo : String) (key : Option String) (pre : List (String × Int))
    (p : String × Int) (post : List (String × Int)) (d : Json)
    (hpre : ∀ q ∈ pre, censusTry net vars geo key q = none)
    (hp : censusTry net vars geo key p = some d) :
    (acs_fallback_loop fn net vars geo key (pre ++ p :: post)).1 = some d ∧
    ((acs_fallback_loop fn net vars geo key (pre ++ p :: post)).2.filter (·.isSucceeded)) =
      [.succeeded fn p.1 p.2] ∧
    ((acs_fallback_loop fn net vars geo key (pre ++ p :: post)).2.filter (·.isRequest)).length =
      pre.length + 1 ∧
    ((acs_fallback_loop fn net vars geo key (pre ++ p :: post)).2.filter (·.isAllFailed)) = [] := by
  rw [acs_loop_first_success fn net vars geo key pre p post d hpre hp]
  have hf := failLogs_filter fn vars geo key pre
  dsimp only
  refine ⟨rfl, ?_, ?_, ?_⟩
  · rw [List.filter_append, hf.1]
    simp
  · rw [List.filter_append, List.length_append, hf.2.2]
    simp
  · rw [List.filter_append, hf.2.1]
    simp

theorem acs_chain_allfail_filters (fn : String) (net : String → Option Json)
    (vars geo : String) (key : Option String) (attempts : List (String × Int))
    (hall : ∀ q ∈ attempts, censusTry net vars geo key q = none) :
    (acs_fallback_loop fn net vars geo key attempts).1 = none ∧
    ((acs_fallback_loop fn net vars geo key attempts).2.filter (·.isAllFailed)) =
      [.allFailed fn geo] ∧
    ((acs_fallback_loop fn net vars geo key attempts).2.filter (·.isSucceeded)) = [] := by
  rw [acs_loop_all_fail fn net vars geo key attempts hall]
  have hf := failLogs_filter fn vars geo key attempts
  dsimp only
  refine ⟨rfl, ?_, ?_⟩
  · rw [List.filter_append, hf.2.1]
    simp
  · rw [List.filter_append, hf.1]
    simp

/-- Claim C4: each Census fallback chain tries its fixed entries strictly in
order; when the first N−1 entries yield the failure sentinel and the Nth a
valid payload, the adapter returns that payload, makes no request beyond the
Nth entry, and logs exactly one success entry naming the Nth attempt; when all
entries fail it returns `none` without raising and logs exactly one error
entry. -/
theorem acs_fallback_chain_spec (net : String → Option Json) (geo vars : String)
    (year : Int) (key : Option String) :
    (∀ pre p post (d : Json), profile_attempts year = pre ++ p :: post →
      (∀ q ∈ pre, censusTry net vars geo key q = none) →
      censusTry net vars geo key p = some d →
      (fetch_acs_profile net geo vars year key).1 = some d ∧
      ((fetch_acs_profile net geo vars year key).2.filter (·.isSucceeded)) =
        [.succeeded "fetch_acs_profile" p.1 p.2] ∧
      ((fetch_acs_profile net geo vars year key).2.filter (·.isRequest)).length =
        pre.length + 1 ∧
      ((fetch_acs_profile net geo vars year key).2.filter (·.isAllFailed)) = []) ∧
    ((∀ q ∈ profile_attempts year, censusTry net vars geo key q = none) →
      (fetch_acs_profile net geo vars year key).1 = none ∧
      ((fetch_acs_profile net geo vars year key).2.filter (·.isAllFailed)) =
        [.allFailed "fetch_acs_profile" geo] ∧
      ((fetch_acs_profile net geo vars year key).2.filter (·.isSucceeded)) = []) ∧
    (∀ pre p post (d : Json), s0801_attempts year = pre ++ p :: post →
      (∀ q ∈ pre, censusTry net vars geo key q = none) →
      censusTry net vars geo key p = some d →
      (fetch_acs_s0801 net geo vars year key).1 = some d ∧
      ((fetch_acs_s0801 net geo vars year key).2.filter (·.isSucceeded)) =
        [.succeeded "fetch_acs_s0801" p.1 p.2] ∧
      ((fetch_acs_s0801 net geo vars year key).2.filter (·.isRequest)).length =
        pre.length + 1 ∧
      ((fetch_acs_s0801 net geo vars year key).2.filter (·.isAllFailed)) = []) ∧
    ((∀ q ∈ s0801_attempts year, censusTry net vars geo key q = none) →
      (fetch_acs_s0801 net geo vars year key).1 = none ∧
      ((fetch_acs_s0801 net geo vars year key).2.filter (·.isAllFailed)) =
        [.allFailed "fetch_acs_s0801" geo] ∧
      ((fetch_acs_s0801 net geo vars year key).2.filter (·.isSucceeded)) = []) := by
  refine ⟨?_, ?_, ?_, ?_⟩
  · intro pre p post d hsplit hpre hp
    unfold fetch_acs_profile
    rw [hsplit]
    exact acs_chain_success_filters "fetch_acs_profile" net vars geo key pre p post d hpre hp
  · intro hall
    unfold fetch_acs_profile
    exact acs_chain_allfail_filters "fetch_acs_profile" net vars geo key _ hall
  · intro pre p post d hsplit hpre hp
    unfold fetch_acs_s0801
    rw [hsplit]
    exact acs_chain_success_filters "fetch_acs_s0801" net vars geo key pre p post d hpre hp
  · intro hall
    unfold fetch_acs_s0801
    exact acs_chain_allfail_filters "fetch_acs_s0801" net vars geo key _ hall

/-- Network oracle for the C4 witness: only the ACS1/subject URL answers. -/
def acsNetW : String → Option Json := fun url =>
  if url = census_url "acs/acs1/subject" 2023 "V" "county:001" none then some (Json.arr [])
  else none

/-- Concrete witness for C4: with only the second profile entry answering, the
profile adapter returns its payload after exactly two requests with one
success log naming ACS1/subject; with nothing answering, the s0801 adapter
returns `none` with exactly one error log. -/
theorem acs_fallback_chain_spec_witness :
    (fetch_acs_profile acsNetW "county:001" "V" 2023 none).1 = some (Json.arr []) ∧
    ((fetch_acs_profile acsNetW "county:001" "V" 2023 none).2.filter (·.isSucceeded)) =
      [.succeeded "fetch_acs_profile" "acs/acs1/subject" 2023] ∧
    ((fetch_acs_profile acsNetW "county:001" "V" 2023 none).2.filter (·.isRequest)).length = 2 ∧
    (fetch_acs_s0801 (fun _ => none) "county:001" "V" 2023 none).1 = none ∧
    ((fetch_acs_s0801 (fun _ => none) "county:001" "V" 2023 none).2.filter (·.isAllFailed)) =
      [.allFailed "fetch_acs_s0801" "county:001"] := by
  have hp := (acs_fallback_chain_spec acsNetW "county:001" "V" 2023 none).1
    [("acs/acs1/profile", 2023)] ("acs/acs1/subject", 2023)
    [("acs/acs5/profile", 2023), ("acs/acs5/subject", 2023)] (Json.arr [])
    rfl
    (by
      intro q hq
      have hq1 : q = ("acs/acs1/profile", (2023 : Int)) := by
        simpa using hq
      rw [hq1]
      rfl)
    rfl
  have hs := (acs_fallback_chain_spec (fun _ => none) "county:001" "V" 2023 none).2.2.2
    (fun q _ => rfl)
  exact ⟨hp.1, hp.2.1, hp.2.2.1, hs.1, hs.2.1⟩

/-- `_census_get` returns `some` only when the parsed JSON body is a list. -/
theorem _census_get_isArr (net : String → Option Json) (dataset : String) (year : Int)
    (vars geo : String) (key : Option String) (d : Json)
    (h : (_census_get net dataset year vars geo key).1 = some d) : d.isArr = true := by
  unfold _census_get at h
  rcases hnet : net (census_url dataset year vars geo key) with _ | v
  · rw [hnet] at h
    simp at h
  · rw [hnet] at h
    by_cases hi : v.isArr
    · simp only [hi, if_true] at h
      simp only [Option.some.injEq] at h
      rw [← h]
      exact hi
    · simp [hi] at h

/-- Any `some` result of a fallback chain is a JSON list. -/
theorem acs_loop_isArr (fn : String) (net : String → Option Json) (vars geo : String)
    (key : Option String) (attempts : List (String × Int)) (d : Json)
    (h : (acs_fallback_loop fn net vars geo key attempts).1 = some d) : d.isArr = true := by
  induction attempts with
  | nil => simp [acs_fallback_loop] at h
  | cons p rest ih =>
    obtain ⟨dataset, yr⟩ := p
    rw [acs_fallback_loop] at h
    rcases hres : (_census_get net dataset yr vars geo key).1 with _ | v
    · rw [hres] at h
      exact ih h
    · rw [hres] at h
      simp only [Option.some.injEq] at h
      rw [← h]
      exact _census_get_isArr net dataset yr vars geo key v hres

/-- Claim C10: every non-`None` value returned by `_census_get` (and hence by
`fetch_acs_profile` and `fetch_acs_s0801`) is a JSON list; a successful HTTP
response whose parsed body is not a list is converted to the absent sentinel
`none`, and therefore also triggers the next fallback-chain entry. -/
theorem census_get_list_only_spec :
    (∀ (net : String → Option Json) dataset year vars geo key (d : Json),
      (_census_get net dataset year vars geo key).1 = some d → d.isArr = true) ∧
    (∀ (net : String → Option Json) dataset year vars geo key (d : Json),
      net (census_url dataset year vars geo key) = some d → d.isArr = false →
      (_census_get net dataset year vars geo key).1 = none) ∧
    (∀ (net : String → Option Json) geo vars year key (d : Json),
      (fetch_acs_profile net geo vars year key).1 = some d → d.isArr = true) ∧
    (∀ (net : String → Option Json) geo vars year key (d : Json),
      (fetch_acs_s0801 net geo vars year key).1 = some d → d.isArr = true) ∧
    (∀ (net : String → Option Json) geo vars year key (d payload : Json),
      net (census_url "acs/acs1/profile" year vars geo key) = some d → d.isArr = false →
      censusTry net vars geo key ("acs/acs1/subject", year) = some payload →
      (fetch_acs_profile net geo vars year key).1 = some payload) := by
  have hconv : ∀ (net : String → Option Json) dataset year vars geo key (d : Json),
      net (census_url dataset year vars geo key) = some d → d.isArr = false →
      (_census_get net dataset year vars geo key).1 = none := by
    intro net dataset year vars geo key d hnet hi
    unfold _census_get
    rw [hnet]
    simp [hi]
  refine ⟨fun net ds yr v g k d h => _census_get_isArr net ds yr v g k d h, hconv,
    fun net geo v yr k d h => acs_loop_isArr _ net v geo k _ d h,
    fun net geo v yr k d h => acs_loop_isArr _ net v geo k _ d h, ?_⟩
  intro net geo vars year key d payload hnet hi hp
  unfold fetch_acs_profile
  have hsplit : profile_attempts year = [("acs/acs1/profile", year)] ++
      ("acs/acs1/subject", year) ::
      [("acs/acs5/profile", year), ("acs/acs5/subject", year)] := rfl
  rw [hsplit]
  have hfirst : censusTry net vars geo key ("acs/acs1/profile", year) = none :=
    hconv net "acs/acs1/profile" year vars geo key d hnet hi
  rw [acs_loop_first_success "fetch_acs_profile" net vars geo key
    [("acs/acs1/profile", year)] ("acs/acs1/subject", year)
    [("acs/acs5/profile", year), ("acs/acs5/subject", year)] payload
    (by
      intro q hq
      have hq1 : q = ("acs/acs1/profile", year) := by simpa using hq
      rw [hq1]
      exact hfirst)
    hp]

/-- Network oracle for the C10 witness: the profile URL answers with a JSON
object (not a list), the subject URL with a list. -/
def c10Net : String → Option Json := fun url =>
  if url = census_url "acs/acs1/profile" 2023 "V" "g" none then some (Json.obj [])
  else if url = census_url "acs/acs1/subject" 2023 "V" "g" none then
    some (Json.arr [Json.str "H"])
  else none

/-- Concrete witness for C10: a successful response whose body is a JSON
object is converted to `none` by `_census_get`, and the chain then returns the
next entry's list payload. -/
theorem census_get_list_only_spec_witness :
    (_census_get c10Net "acs/acs1/profile" 2023 "V" "g" none).1 = none ∧
    (fetch_acs_profile c10Net "g" "V" 2023 none).1 = some (Json.arr [Json.str "H"]) :=
  ⟨census_get_list_only_spec.2.1 c10Net "acs/acs1/profile" 2023 "V" "g" none
      (Json.obj []) rfl rfl,
    census_get_list_only_spec.2.2.2.2 c10Net "g" "V" 2023 none (Json.obj [])
      (Json.arr [Json.str "H"]) rfl rfl rfl⟩

/-! ## `fetch_counties` -/

/-- Python `range(start, stop, step)` for a positive step. -/
def pyRange (start stop step : Nat) : List Nat :=
  List.range' start ((stop - start + step - 1) / step) step

/-- Python `str.zfill(w)` on an unsigned digit string. -/
def pyZfill (s : String) (w : Nat) : String :=
  if w ≤ s.length then s else ⟨List.replicate (w - s.length) '0' ++ s.data⟩

/-- `fetch_counties()`:
`[str(fips).zfill(3) for fips in range(1, 124, 2)]`. -/
def fetch_counties : List String :=
  (pyRange 1 124 2).map (fun fips => pyZfill (toString fips) 3)

/-- Claim C2: the county list generated once per run is exactly the
odd-numbered 3-digit zero-padded geography codes from 001 to 123 inclusive:
62 elements, each a 3-character string, strictly increasing, containing the
code of every odd value in [1,123] and nothing else. -/
theorem fetch_counties_spec :
    fetch_counties.length = 62 ∧
    (∀ s ∈ fetch_counties, s.length = 3) ∧
    List.Pairwise (fun a b : String => a.data < b.data) fetch_counties ∧
    (∀ k : Nat, k % 2 = 1 ∧ 1 ≤ k ∧ k ≤ 123 → pyZfill (toString k) 3 ∈ fetch_counties) ∧
    (∀ s ∈ fetch_counties, ∃ k : Nat, k % 2 = 1 ∧ 1 ≤ k ∧ k ≤ 123 ∧ s = pyZfill (toString k) 3) := by
  refine ⟨by decide, by decide, by decide, ?_, ?_⟩
  · rintro k ⟨hodd, h1, h123⟩
    have hmem : k ∈ pyRange 1 124 2 := by
      unfold pyRange
      rw [List.mem_range']
      exact ⟨(k - 1) / 2, by omega, by omega⟩
    exact List.mem_map_of_mem _ hmem
  · intro s hs
    obtain ⟨k, hk, rfl⟩ := List.mem_map.1 hs
    unfold pyRange at hk
    rw [List.mem_range'] at hk
    obtain ⟨i, hi, rfl⟩ := hk
    exact ⟨1 + 2 * i, by omega, by omega, by omega, rfl⟩

/-- Concrete witness for C2: the list has 62 entries, "001" is a member of
length 3, and the top odd code 123 appears. -/
theorem fetch_counties_spec_witness :
    fetch_counties.length = 62 ∧ ("001" : String).length = 3 ∧
      pyZfill (toString 123) 3 ∈ fetch_counties :=
  ⟨fetch_counties_spec.1, fetch_counties_spec.2.1 "001" (by decide),
    fetch_counties_spec.2.2.2.1 123 (by omega)⟩

/-! ## Python string helpers (ASCII semantics) -/

/-- Python `str.isdigit` on the ASCII range. -/
def pyIsDigit (c : Char) : Bool := 48 ≤ c.toNat && c.toNat ≤ 57

/-- Python `str.lower` on one ASCII character. -/
def pyToLower (c : Char) : Char :=
  if 65 ≤ c.toNat ∧ c.toNat ≤ 90 then Char.ofNat (c.toNat + 32) else c

/-- Python `str.lower`. -/
def pyStrLower (s : String) : String := ⟨s.data.map pyToLower⟩

/-- Python `str.startswith`. -/
def pyStartsWith (s kw : String) : Bool := kw.data.isPrefixOf s.data

theorem toNat_ofNat_valid (n : Nat) (h : Nat.isValidChar n) : (Char.ofNat n).toNat = n := by
  unfold Char.ofNat
  rw [dif_pos h]
  simp [Char.toNat, Char.ofNatAux, UInt32.toNat, BitVec.toNat_ofNatLt]

/-! ## Tables (pandas collaborator surface)

A `DataFrame` is a list of column names plus rows of cell bindings (a missing
binding is a `NaN`).  `getCol` models `df.get(c, pd.Series(dtype=str))`
(the empty default series when the column is absent) and `boolIndex` models
boolean-Series row selection `df[mask]`, including pandas' alignment check:
a mask that does not align with the frame's rows — in this program, the empty
default series produced by `df.get` on a missing column, indexing a nonempty
frame — raises `IndexingError` ("Unalignable boolean Series provided as
indexer").  A mask built from a present column always has one entry per row
and aligns. -/

structure DataFrame where
  cols : List String
  rows : List (List (String × String))
deriving DecidableEq

/-- Cell lookup in one row (`NaN` → `none`). -/
def lookupCell (row : List (String × String)) (c : String) : Option String :=
  (row.find? (fun kv => kv.1 == c)).map (·.2)

/-- `df.get(c, pd.Series(dtype=str))`. -/
def DataFrame.getCol (df : DataFrame) (c : String) : List (Option String) :=
  if df.cols.contains c then df.rows.map (fun r => lookupCell r c) else []

/-- `df[mask].copy()`: keep the rows whose mask entry is true when the mask
aligns, raise `IndexingError` when it does not. -/
def DataFrame.boolIndex (df : DataFrame) (mask : List Bool) : Except PError DataFrame :=
  if mask.length = df.rows.length then
    .ok ⟨df.cols, ((df.rows.zip mask).filter (fun rb => rb.2)).map (·.1)⟩
  else
    .error ⟨"Unalignable boolean Series provided as indexer"⟩

/-! ## County Filters -/

/-- The log line of `build_lehd_by_county`'s `except` branch. -/
inductive LehdLog
  | buildFailed (county : String) (msg : String)
deriving DecidableEq

/-- `df.get("cty", pd.Series(dtype=str)).str.startswith(county)`. -/
def lehdMask (county : String) (d : DataFrame) : List Bool :=
  (d.getCol "cty").map (fun v =>
    match v with
    | some s => pyStartsWith s county
    | none => false)

/-- `build_lehd_by_county(county, lehd_path)`: `parsed` is the outcome of the
`pd.read_csv(lehd_path, compression="gzip", dtype=str)` collaborator call.
The whole body sits inside the `try`, so the `except` branch catches both a
parse error and an `IndexingError` from `df[mask]`, logs a warning and returns
`None`.  Present tables keep the rows whose `cty` column starts with the
county code. -/
def build_lehd_by_county (county : String) (parsed : Except PError DataFrame) :
    Option DataFrame × List LehdLog :=
  match parsed with
  | .error e => (none, [.buildFailed county e.msg])
  | .ok df =>
    match df.boolIndex (lehdMask county df) with
    | .ok t => (some t, [])
    | .error e => (none, [.buildFailed county e.msg])

def DOLA_SYA_URL : String :=
  "https://demography.dola.colorado.gov/assets/downloads/county_sya_estimates.csv"

def DOLA_SOURCE_CSV : String := "data/hna/source/dola_sya_county.csv"

/-- One constructor per log call in the DOLA adapter. -/
inductive DolaLog
  | downloading (url : String)
  | saved (path : String)
  | downloadFailed (msg : String)
  | usingCache (path : String)
  | unavailable
  | parseFailed (path : String)
deriving DecidableEq

def excMsg : PyExc → String
  | .requestException m => m
  | .runtimeError m => m

structure DolaEnv where
  fresh : Except PyExc String
  cache0 : Option String
  parseCSV : String → Except PError DataFrame

/-- `download_dola_sya(dest)`: returns the success flag together with the
cache file state after the call (a successful download overwrites it) and the
log lines. -/
def download_dola_sya (env : DolaEnv) : Bool × Option String × List DolaLog :=
  match env.fresh with
  | .ok text => (true, some text, [.downloading DOLA_SYA_URL, .saved DOLA_SOURCE_CSV])
  | .error e => (false, env.cache0, [.downloading DOLA_SYA_URL, .downloadFailed (excMsg e)])

/-- `load_dola_sya(cache)`: download fresh; on failure fall back to the cache
file when present (logging the cached-file warning first), give up when
neither exists; any parse error is caught and converted to `None`. -/
def load_dola_sya (env : DolaEnv) : Option DataFrame × List DolaLog :=
  match download_dola_sya env with
  | (true, some c, lg) =>
    match env.parseCSV c with
    | .ok df => (some df, lg)
    | .error _ => (none, lg ++ [.parseFailed DOLA_SOURCE_CSV])
  | (true, none, lg) => (none, lg ++ [.parseFailed DOLA_SOURCE_CSV])
  | (false, some c, lg) =>
    match env.parseCSV c with
    | .ok df => (some df, lg ++ [.usingCache DOLA_SOURCE_CSV])
    | .error _ => (none, lg ++ [.usingCache DOLA_SOURCE_CSV, .parseFailed DOLA_SOURCE_CSV])
  | (false, none, lg) => (none, lg ++ [.unavailable])

/-- Claim C8: the cache file is read back only when the fresh download fails
(a successful download makes the result independent of the pre-existing cache
contents), and when the fresh download fails but the cache exists and parses,
`load_dola_sya` returns the cached table and logs the cached-file warning. -/
theorem dola_cache_fallback_spec :
    (∀ (text : String) (c0 : Option String) (p : String → Except PError DataFrame),
      load_dola_sya ⟨.ok text, c0, p⟩ = load_dola_sya ⟨.ok text, none, p⟩) ∧
    (∀ (e : PyExc) (c : String) (p : String → Except PError DataFrame) (df : DataFrame),
      p c = .ok df →
      load_dola_sya ⟨.error e, some c, p⟩ =
        (some df, [.downloading DOLA_SYA_URL, .downloadFailed (excMsg e),
          .usingCache DOLA_SOURCE_CSV]) ∧
      .usingCache DOLA_SOURCE_CSV ∈ (load_dola_sya ⟨.error e, some c, p⟩).2) := by
  constructor
  · intro text c0 p
    rfl
  · intro e c p df hp
    have h1 : load_dola_sya ⟨.error e, some c, p⟩ =
        (some df, [.downloading DOLA_SYA_URL, .downloadFailed (excMsg e),
          .usingCache DOLA_SOURCE_CSV]) := by
      dsimp only [load_dola_sya, download_dola_sya]
      rw [hp]
      rfl
    exact ⟨h1, by rw [h1]; simp⟩

/-- Concrete witness for C8: a failed download with a parseable cached file
yields the cached table plus the cached-file warning. -/
theorem dola_cache_fallback_spec_witness :
    load_dola_sya ⟨.error (.requestException "timeout"), some "cached,csv",
        fun s => if s = "cached,csv" then .ok ⟨["county"], []⟩ else .error ⟨"bad"⟩⟩ =
      (some ⟨["county"], []⟩, [.downloading DOLA_SYA_URL, .downloadFailed "timeout",
        .usingCache DOLA_SOURCE_CSV]) :=
  (dola_cache_fallback_spec.2 (.requestException "timeout") "cached,csv"
    (fun s => if s = "cached,csv" then .ok ⟨["county"], []⟩ else .error ⟨"bad"⟩)
    ⟨["county"], []⟩ rfl).1

/-- Claim C9 counterexample: a parse failure of the LEHD per-county build is
caught inside `build_lehd_by_county` (its `except` branch) and converted to
the absent sentinel with a warning log — it does not propagate as an
exception, contrary to the claim that a ParseError is always fatal for the
LEHD source. -/
theorem lehd_parse_error_caught_counterexample :
    (build_lehd_by_county "001" (.error ⟨"invalid gzip header"⟩)).1 = none ∧
    (build_lehd_by_county "001" (.error ⟨"invalid gzip header"⟩)).2 =
      [.buildFailed "001" "invalid gzip header"] :=
  ⟨rfl, rfl⟩

/-- Claim C9 (amended): a ParseError is non-fatal for the best-effort DOLA
source (caught, logged, converted to absent) and also for the LEHD per-county
build, whose `except` branch catches it, logs a warning and returns the absent
sentinel; only the LEHD download itself propagates exceptions. -/
theorem parse_error_nonfatal_spec :
    (∀ (county : String) (e : PError),
      build_lehd_by_county county (.error e) = (none, [.buildFailed county e.msg])) ∧
    (∀ (e : PyExc) (c : String) (p : String → Except PError DataFrame) (pe : PError),
      p c = .error pe → (load_dola_sya ⟨.error e, some c, p⟩).1 = none) ∧
    (∀ (text : String) (c0 : Option String) (p : String → Except PError DataFrame)
      (pe : PError), p text = .error pe → (load_dola_sya ⟨.ok text, c0, p⟩).1 = none) := by
  refine ⟨fun county e => rfl, ?_, ?_⟩
  · intro e c p pe hp
    dsimp only [load_dola_sya, download_dola_sya]
    rw [hp]
  · intro text c0 p pe hp
    dsimp only [load_dola_sya, download_dola_sya]
    rw [hp]

/-- Concrete witness for the amended C9. -/
theorem parse_error_nonfatal_spec_witness :
    build_lehd_by_county "001" (.error ⟨"bad"⟩) = (none, [.buildFailed "001" "bad"]) ∧
    (load_dola_sya ⟨.error (.requestException "down"), some "x",
      fun _ => .error ⟨"bad csv"⟩⟩).1 = none ∧
    (load_dola_sya ⟨.ok "fresh", none, fun _ => .error ⟨"bad csv"⟩⟩).1 = none :=
  ⟨parse_error_nonfatal_spec.1 "001" ⟨"bad"⟩,
    parse_error_nonfatal_spec.2.1 (.requestException "down") "x" (fun _ => .error ⟨"bad csv"⟩)
      ⟨"bad csv"⟩ rfl,
    parse_error_nonfatal_spec.2.2 "fresh" none (fun _ => .error ⟨"bad csv"⟩) ⟨"bad csv"⟩ rfl⟩

/-! ## LEHD (critical source) and the `main` entry point -/

def LEHD_BASE : String := "https://lehd.ces.census.gov/data/lodes/LODES8"

def OUTPUT_DIR : String := "data/hna/output"

/-- `filename = f"{state.lower()}_wac_S000_JT00_{year}.csv.gz"`. -/
def lehd_filename (state : String) (year : Int) : String :=
  pyStrLower state ++ "_wac_S000_JT00_" ++ toString year ++ ".csv.gz"

/-- `download_lehd(state, year, dest_dir)`: single streamed GET with no
retry/backoff; a request or HTTP-status failure propagates as an exception
(`raise_for_status`), a success writes the file and returns its path. -/
def download_lehd (get : Except PyExc String) (state : String) (year : Int)
    (dest_dir : String) : Except PyExc String :=
  match get with
  | .error e => .error e
  | .ok _body => .ok (dest_dir ++ "/" ++ lehd_filename state year)

/-- `os.makedirs` failure value. -/
structure OSError where
  msg : String
deriving DecidableEq

/-- The run environment of `main`: the outcome `os.makedirs(OUTPUT_DIR)`
would produce, the DOLA boundary, and the outcome the LEHD download request
would produce if it were made. -/
structure MainEnv where
  mkdirOutput : Except OSError Unit
  dola : DolaEnv
  lehdGet : Except PyExc String

/-- The pipeline steps `main` actually performs, in order. -/
inductive MainStep
  | madeOutputDir
  | loadedDolaSya
  | builtGeoInputs
  | builtSummaryCache
  | wroteGeoConfig
  | downloadedLehd
deriving DecidableEq

/-- `main()`: create the output directory (exit code 1 on `OSError`), then run
the best-effort builds (`load_dola_sya`, `build_geo_derived_inputs`,
`build_summary_cache`, `write_geo_config`) and return exit code 0.  Note that
the source's `main` never calls `download_lehd` or the Census adapters. -/
def main' (env : MainEnv) : Int × List MainStep :=
  match env.mkdirOutput with
  | .error _ => (1, [])
  | .ok _ =>
    let _sya := load_dola_sya env.dola
    (0, [.madeOutputDir, .loadedDolaSya, .builtGeoInputs, .builtSummaryCache, .wroteGeoConfig])

/-- The exit code of `main'` is decided by the output-directory creation alone,
and no run of `main` ever invokes the LEHD download. -/
theorem main_exit_code (env : MainEnv) :
    ((main' env).1 = 1 ↔ ∃ e, env.mkdirOutput = .error e) ∧
    ((main' env).1 = 0 ↔ ∃ u, env.mkdirOutput = .ok u) ∧
    MainStep.downloadedLehd ∉ (main' env).2 := by
  unfold main'
  rcases henv : env.mkdirOutput with u | e
  · simp
  · simp

/-- Claim C1 (code divergence, evaluated at the failing input): in a run
environment where the output directory is created successfully but the LEHD
download would fail — and `download_lehd` does propagate that failure when
invoked — `main` still exits 0, because it never invokes the LEHD adapter. -/
theorem main_ignores_lehd_failure :
    download_lehd (.error (.requestException "HTTP 503")) "co" 2021 OUTPUT_DIR =
      .error (.requestException "HTTP 503") ∧
    main' ⟨.ok (), ⟨.error (.requestException "HTTP 503"), none, fun _ => .error ⟨"no file"⟩⟩,
        .error (.requestException "HTTP 503")⟩ =
      (0, [.madeOutputDir, .loadedDolaSya, .builtGeoInputs, .builtSummaryCache,
        .wroteGeoConfig]) ∧
    MainStep.downloadedLehd ∉
      (main' ⟨.ok (), ⟨.error (.requestException "HTTP 503"), none, fun _ => .error ⟨"no file"⟩⟩,
        .error (.requestException "HTTP 503")⟩).2 := by
  refine ⟨rfl, rfl, ?_⟩
  intro hmem
  simp [main'] at hmem

/-! ## Tabular Reader (`read_csv_with_banner_skip`)

The banner scan reads the file's raw lines; `parseCSV` is the pandas engine
applied to the remaining lines (`pd.read_csv(path, skiprows=skip)`). -/

/-- `line.split(",")[0]`: the text before the first comma. -/
def pySplitFirst (line : String) : String :=
  ⟨line.data.takeWhile (fun c => !(c == ','))⟩

/-- Python `str.strip(chars)`: remove all leading and trailing characters
satisfying `p`. -/
def pyStripChars (p : Char → Bool) (s : String) : String :=
  ⟨((s.data.dropWhile p).reverse.dropWhile p).reverse⟩

/-- `line.split(",")[0].strip().strip('"')`. -/
def firstCell (line : String) : String :=
  pyStripChars (fun c => c == '"') (pyStripChars pyIsSpace (pySplitFirst line))

/-- `first_cell == "" or first_cell[0].isdigit()` — the scan-stop test. -/
def breakLine (fc : String) : Bool :=
  match fc.data with
  | [] => true
  | c :: _ => pyIsDigit c

/-- The fixed keyword set `("vintage", "note", "source", "#")`. -/
def bannerKeywords : List (List Char) :=
  [['v', 'i', 'n', 't', 'a', 'g', 'e'], ['n', 'o', 't', 'e'],
   ['s', 'o', 'u', 'r', 'c', 'e'], ['#']]

/-- `any(first_cell.lower().startswith(kw) for kw in (...))`. -/
def bannerKeyword (fc : String) : Bool :=
  bannerKeywords.any (fun kw => kw.isPrefixOf (pyStrLower fc).data)

/-- The banner-scanning loop of `read_csv_with_banner_skip`: the number of
leading lines skipped. -/
def bannerSkip : List String → Nat
  | [] => 0
  | line :: rest =>
    if breakLine (firstCell line) then 0
    else if bannerKeyword (firstCell line) then 1 + bannerSkip rest
    else 0

/-- `read_csv_with_banner_skip(path, encoding)`. -/
def read_csv_with_banner_skip (parseCSV : List String → Except PError DataFrame)
    (lines : List String) : Except PError DataFrame :=
  parseCSV (lines.drop (bannerSkip lines))

theorem pyToLower_not_digit (c k : Char) (hk : pyToLower c = k)
    (hknat : k.toNat = 118 ∨ k.toNat = 110 ∨ k.toNat = 115 ∨ k.toNat = 35) :
    pyIsDigit c = false := by
  unfold pyToLower at hk
  by_cases hin : 65 ≤ c.toNat ∧ c.toNat ≤ 90
  · simp [pyIsDigit]
    omega
  · rw [if_neg hin] at hk
    subst hk
    simp [pyIsDigit]
    omega

/-- A keyword-starting first cell is never empty and never digit-initial:
the keyword test alone decides the skip. -/
theorem bannerKeyword_not_break (fc : String) (h : bannerKeyword fc = true) :
    breakLine fc = false := by
  unfold bannerKeyword bannerKeywords at h
  rcases hd : fc.data with _ | ⟨c, rest⟩
  · exfalso
    have hlow : (pyStrLower fc).data = [] := by
      unfold pyStrLower
      rw [hd]
      rfl
    rw [hlow] at h
    simp [List.isPrefixOf] at h
  · have hlow : (pyStrLower fc).data = pyToLower c :: rest.map pyToLower := by
      unfold pyStrLower
      rw [hd]
      rfl
    rw [hlow] at h
    unfold breakLine
    rw [hd]
    simp only [List.any_cons, List.any_nil, List.isPrefixOf, Bool.or_eq_true,
      Bool.and_eq_true, beq_iff_eq, Bool.or_false] at h
    rcases h with ⟨hc, _⟩ | ⟨hc, _⟩ | ⟨hc, _⟩ | ⟨hc, _⟩ <;>
      exact pyToLower_not_digit c _ hc.symm (by decide)

/-- Claim C6: a line is skipped exactly when its first comma-delimited cell
(after trimming whitespace and surrounding quotes) is non-numeric and starts
case-insensitively with one of {"vintage", "note", "source", "#"} — since a
keyword-starting cell is never empty or digit-initial, that condition is the
keyword test alone; scanning stops at the first line whose first cell is empty
or digit-initial (or fails the keyword test), all following lines go to the
parser; hence N banner lines followed by a stop line give skip count exactly N
(0 banner lines give 0). -/
theorem banner_skip_spec :
    (∀ line : String,
      ((breakLine (firstCell line) = false ∧ bannerKeyword (firstCell line) = true) ↔
        bannerKeyword (firstCell line) = true)) ∧
    (∀ (banner rest : List String),
      (∀ l ∈ banner, bannerKeyword (firstCell l) = true) →
      (∀ h t, rest = h :: t →
        breakLine (firstCell h) = true ∨ bannerKeyword (firstCell h) = false) →
      bannerSkip (banner ++ rest) = banner.length ∧
      (banner ++ rest).drop (bannerSkip (banner ++ rest)) = rest ∧
      ∀ parseCSV, read_csv_with_banner_skip parseCSV (banner ++ rest) = parseCSV rest) := by
  constructor
  · intro line
    constructor
    · rintro ⟨_, hk⟩
      exact hk
    · intro hk
      exact ⟨bannerKeyword_not_break _ hk, hk⟩
  · intro banner rest hb hstop
    have hskip : bannerSkip (banner ++ rest) = banner.length := by
      induction banner with
      | nil =>
        simp only [List.nil_append, List.length_nil]
        cases rest with
        | nil => rfl
        | cons h t =>
          rcases hstop h t rfl with hbr | hkw
          · simp [bannerSkip, hbr]
          · by_cases hbl : breakLine (firstCell h) <;> simp [bannerSkip, hbl, hkw]
      | cons l bs ih =>
        have hkw := hb l (List.mem_cons_self _ _)
        have hbr := bannerKeyword_not_break _ hkw
        have ihr := ih (fun x hx => hb x (List.mem_cons_of_mem _ hx))
        simp [bannerSkip, hbr, hkw, ihr]
        omega
    refine ⟨hskip, ?_, ?_⟩
    · rw [hskip, List.drop_left]
    · intro parseCSV
      unfold read_csv_with_banner_skip
      rw [hskip, List.drop_left]

/-- Concrete witness for C6: two banner lines then a header line give skip
count 2 and the remainder is handed to the parser; zero banner lines give 0. -/
theorem banner_skip_spec_witness :
    bannerSkip (["Vintage 2023 county estimates,x", "# note,y"] ++
      ["county,age,pop", "001,0,100"]) = 2 ∧
    (["Vintage 2023 county estimates,x", "# note,y"] ++
      ["county,age,pop", "001,0,100"]).drop 2 = ["county,age,pop", "001,0,100"] ∧
    bannerSkip (([] : List String) ++ ["county,age,pop", "001,0,100"]) = 0 := by
  have hstop : ∀ h t, (["county,age,pop", "001,0,100"] : List String) = h :: t →
      breakLine (firstCell h) = true ∨ bannerKeyword (firstCell h) = false := by
    intro h t heq
    injection heq with e1 e2
    subst e1
    right
    decide
  have h2 := banner_skip_spec.2 ["Vintage 2023 county estimates,x", "# note,y"]
    ["county,age,pop", "001,0,100"] (by decide) hstop
  have h0 := banner_skip_spec.2 [] ["county,age,pop", "001,0,100"] (by simp) hstop
  refine ⟨h2.1, ?_, h0.1⟩
  have hdrop := h2.2.1
  rwa [h2.1] at hdrop

/-! ## Redactor properties (C7) -/

theorem keyMatch_take4 {l : List Char} (h : keyMatch l = true) :
    l.take 4 = ['k', 'e', 'y', '='] := by
  simp [keyMatch] at h
  exact h.1

theorem keyMatch_run {l : List Char} (h : keyMatch l = true) :
    (l.drop 4).takeWhile isValChar ≠ [] := by
  unfold keyMatch at h
  rw [Bool.and_eq_true] at h
  intro hnil
  have h2 := h.2
  rw [hnil] at h2
  simp at h2

theorem keyMatch_head {c : Char} {cs : List Char} (h : keyMatch (c :: cs) = true) :
    c = 'k' := by
  have h4' : c :: cs.take 3 = ['k', 'e', 'y', '='] := keyMatch_take4 h
  rw [List.cons.injEq] at h4'
  exact h4'.1

theorem keyMatch_false_of_head {c : Char} {cs : List Char} (h : ¬ c = 'k') :
    keyMatch (c :: cs) = false := by
  cases hkm : keyMatch (c :: cs)
  · rfl
  · exact absurd (keyMatch_head hkm) h

theorem takeWhile_dropWhile_nil (p : Char → Bool) (x : List Char) :
    (x.dropWhile p).takeWhile p = [] := by
  induction x with
  | nil => rfl
  | cons a t ih =>
    rw [List.dropWhile_cons]
    by_cases hpa : p a = true
    · rw [if_pos hpa]
      exact ih
    · rw [if_neg hpa, List.takeWhile_cons, if_neg hpa]

theorem redactList_head_nonval (l : List Char) (h : l.takeWhile isValChar = []) :
    (redactList l).takeWhile isValChar = [] ∧
    (redactList l).dropWhile isValChar = redactList l := by
  cases l with
  | nil => rw [redactList_nil]; exact ⟨rfl, rfl⟩
  | cons c cs =>
    have hc : isValChar c = false := by
      rw [List.takeWhile_cons] at h
      by_cases hcv : isValChar c = true
      · rw [if_pos hcv] at h
        simp at h
      · simpa using hcv
    have hk : keyMatch (c :: cs) = false :=
      keyMatch_false_of_head (by
        intro hck
        subst hck
        exact absurd hc (by decide))
    rw [redactList_cons_nomatch c cs hk]
    constructor
    · rw [List.takeWhile_cons, if_neg (by rw [hc]; exact Bool.false_ne_true)]
    · rw [List.dropWhile_cons, if_neg (by rw [hc]; exact Bool.false_ne_true)]

theorem redactList_take4 (l : List Char) : (redactList l).take 4 = l.take 4 := by
  have H : ∀ n (l : List Char), l.length ≤ n → (redactList l).take 4 = l.take 4 := by
    intro n
    induction n with
    | zero =>
      intro l hl
      have hnil : l = [] := List.length_eq_zero.mp (by omega)
      subst hnil
      rw [redactList_nil]
    | succ n ih =>
      intro l hl
      cases l with
      | nil => rw [redactList_nil]
      | cons c cs =>
        by_cases hm : keyMatch (c :: cs) = true
        · rw [redactList_cons_match c cs hm, keyMatch_take4 hm]
          rfl
        · have hm' : keyMatch (c :: cs) = false := by simpa using hm
          rw [redactList_cons_nomatch c cs hm']
          have ihc : (redactList cs).take 4 = cs.take 4 :=
            ih cs (by simp at hl; omega)
          have h3 : (redactList cs).take 3 = cs.take 3 := by
            have h := congrArg (List.take 3) ihc
            simpa [List.take_take] using h
          show c :: (redactList cs).take 3 = c :: cs.take 3
          rw [h3]
  exact H l.length l le_rfl

theorem redactList_take3 (l : List Char) : (redactList l).take 3 = l.take 3 := by
  have h := congrArg (List.take 3) (redactList_take4 l)
  simpa [List.take_take] using h

theorem redactList_idem (l : List Char) : redactList (redactList l) = redactList l := by
  have H : ∀ n (l : List Char), l.length ≤ n → redactList (redactList l) = redactList l := by
    intro n
    induction n with
    | zero =>
      intro l hl
      have hnil : l = [] := List.length_eq_zero.mp (by omega)
      subst hnil
      rw [redactList_nil, redactList_nil]
    | succ n ih =>
      intro l hl
      cases l with
      | nil => rw [redactList_nil, redactList_nil]
      | cons c cs =>
        by_cases hm : keyMatch (c :: cs) = true
        · rw [redactList_cons_match c cs hm]
          have hrtw : ((cs.drop 3).dropWhile isValChar).takeWhile isValChar = [] :=
            takeWhile_dropWhile_nil _ _
          have hX := redactList_head_nonval ((cs.drop 3).dropWhile isValChar) hrtw
          have hkm2 : keyMatch ('k' :: 'e' :: 'y' :: '=' :: '*' :: '*' :: '*' ::
              redactList ((cs.drop 3).dropWhile isValChar)) = true := by
            unfold keyMatch
            rw [Bool.and_eq_true]
            refine ⟨by rfl, ?_⟩
            show (!(List.takeWhile isValChar ('*' :: '*' :: '*' ::
              redactList ((cs.drop 3).dropWhile isValChar))).isEmpty) = true
            rw [List.takeWhile_cons, if_pos (by decide)]
            rfl
          rw [redactList_cons_match _ _ hkm2]
          have harg : ((('e' :: 'y' :: '=' :: '*' :: '*' :: '*' ::
              redactList ((cs.drop 3).dropWhile isValChar)).drop 3).dropWhile isValChar) =
              redactList ((cs.drop 3).dropWhile isValChar) := by
            show (('*' :: '*' :: '*' ::
              redactList ((cs.drop 3).dropWhile isValChar)).dropWhile isValChar) = _
            rw [List.dropWhile_cons, if_pos (by decide), List.dropWhile_cons,
              if_pos (by decide), List.dropWhile_cons, if_pos (by decide)]
            exact hX.2
          rw [harg]
          have hlen : ((cs.drop 3).dropWhile isValChar).length ≤ n := by
            have h1 := (List.dropWhile_sublist (l := cs.drop 3) isValChar).length_le
            simp [List.length_drop] at h1
            simp at hl
            omega
          rw [ih _ hlen]
        · have hm' : keyMatch (c :: cs) = false := by simpa using hm
          rw [redactList_cons_nomatch c cs hm']
          have hm2 : keyMatch (c :: redactList cs) = false := by
            by_cases hck : c = 'k'
            · subst hck
              by_cases hc3 : cs.take 3 = ['e', 'y', '=']
              · have hrun : (cs.drop 3).takeWhile isValChar = [] := by
                  by_contra hne
                  apply hm
                  unfold keyMatch
                  rw [Bool.and_eq_true]
                  constructor
                  · show (('k' :: cs.take 3) == ['k', 'e', 'y', '=']) = true
                    rw [hc3]
                    rfl
                  · show (!(List.takeWhile isValChar (cs.drop 3)).isEmpty) = true
                    rcases hw : (cs.drop 3).takeWhile isValChar with _ | ⟨a, t⟩
                    · exact absurd hw hne
                    · rfl
                obtain ⟨rest2, rfl⟩ : ∃ rest2, cs = 'e' :: 'y' :: '=' :: rest2 := by
                  rcases cs with _ | ⟨a, _ | ⟨b, _ | ⟨d, t⟩⟩⟩
                  · simp at hc3
                  · simp [List.take] at hc3
                  · simp [List.take] at hc3
                  · have hc3' : a :: b :: d :: ([] : List Char) = ['e', 'y', '='] := hc3
                    rw [List.cons.injEq, List.cons.injEq, List.cons.injEq] at hc3'
                    obtain ⟨rfl, rfl, rfl, _⟩ := hc3'
                    exact ⟨t, rfl⟩
                have hred : redactList ('e' :: 'y' :: '=' :: rest2) =
                    'e' :: 'y' :: '=' :: redactList rest2 := by
                  rw [redactList_cons_nomatch _ _ (keyMatch_false_of_head (by decide)),
                    redactList_cons_nomatch _ _ (keyMatch_false_of_head (by decide)),
                    redactList_cons_nomatch _ _ (keyMatch_false_of_head (by decide))]
                rw [hred]
                have h1 : (redactList rest2).takeWhile isValChar = [] :=
                  (redactList_head_nonval rest2 (by
                    have : (('e' :: 'y' :: '=' :: rest2).drop 3).takeWhile isValChar = [] := hrun
                    exact this)).1
                cases hkm2 : keyMatch ('k' :: 'e' :: 'y' :: '=' :: redactList rest2)
                · rfl
                · exfalso
                  have hr := keyMatch_run hkm2
                  exact hr h1
              · cases hkm2 : keyMatch ('k' :: redactList cs)
                · rfl
                · exfalso
                  have h4' : 'k' :: (redactList cs).take 3 = ['k', 'e', 'y', '='] :=
                    keyMatch_take4 hkm2
                  rw [List.cons.injEq] at h4'
                  rw [redactList_take3] at h4'
                  exact hc3 h4'.2
            · exact keyMatch_false_of_head hck
          rw [redactList_cons_nomatch _ _ hm2]
          rw [ih cs (by simp at hl; omega)]
  exact H l.length l le_rfl

theorem redactList_prefix_starfree (l p : List Char) (hstar : '*' ∉ p)
    (hp : p <+: redactList l) : p <+: l := by
  have H : ∀ n (l p : List Char), l.length ≤ n → '*' ∉ p → p <+: redactList l → p <+: l := by
    intro n
    induction n with
    | zero =>
      intro l p hl hst hp
      have hnil : l = [] := List.length_eq_zero.mp (by omega)
      subst hnil
      rwa [redactList_nil] at hp
    | succ n ih =>
      intro l p hl hst hp
      cases l with
      | nil => rwa [redactList_nil] at hp
      | cons c cs =>
        by_cases hm : keyMatch (c :: cs) = true
        · rw [redactList_cons_match c cs hm] at hp
          have hlen : p.length ≤ 4 := by
            by_contra hgt
            push_neg at hgt
            have h5 : 4 < p.length := by omega
            have hg := hp.getElem h5
            have hg4 : p[4] = '*' := by
              rw [hg]
              rfl
            exact hst (hg4 ▸ List.getElem_mem h5)
          have heq := List.prefix_iff_eq_take.mp hp
          have hsplit : ('k' :: 'e' :: 'y' :: '=' :: '*' :: '*' :: '*' ::
              redactList ((cs.drop 3).dropWhile isValChar)) =
              ['k', 'e', 'y', '='] ++ ('*' :: '*' :: '*' ::
                redactList ((cs.drop 3).dropWhile isValChar)) := rfl
          rw [hsplit, List.take_append_of_le_length (by simpa using hlen)] at heq
          have hpk : p <+: ['k', 'e', 'y', '='] := by
            rw [heq]
            exact List.take_prefix _ _
          have h4 : ['k', 'e', 'y', '='] <+: c :: cs := by
            rw [← keyMatch_take4 hm]
            exact List.take_prefix _ _
          exact hpk.trans h4
        · have hm' : keyMatch (c :: cs) = false := by simpa using hm
          rw [redactList_cons_nomatch c cs hm'] at hp
          cases p with
          | nil => exact List.nil_prefix
          | cons q qs =>
            rw [List.cons_prefix_cons] at hp ⊢
            obtain ⟨rfl, hqs⟩ := hp
            exact ⟨rfl, ih cs qs (by simp at hl; omega)
              (fun hq => hst (List.mem_cons_of_mem _ hq)) hqs⟩
  exact H l.length l p le_rfl hstar hp

/-- The masked secret of the spec's redaction test. -/
def secretChars : List Char := ['S', 'E', 'C', 'R', 'E', 'T', '1', '2', '3']

/-- Every occurrence of the secret in `l` lies in key position: it is
immediately preceded by the four characters `key=`. -/
def onlyKeyedSecrets (l : List Char) : Prop :=
  ∀ i, i < l.length → secretChars <+: l.drop i →
    4 ≤ i ∧ ['k', 'e', 'y', '='] <+: l.drop (i - 4)

instance onlyKeyedSecrets.decidable (l : List Char) : Decidable (onlyKeyedSecrets l) := by
  unfold onlyKeyedSecrets
  infer_instance

theorem secret_occ_lt {l : List Char} {i : Nat} (h : secretChars <+: l.drop i) :
    i + 9 ≤ l.length := by
  have hle := h.length_le
  simp [List.length_drop, secretChars] at hle
  omega

theorem redactList_no_secret (l : List Char) (hl : onlyKeyedSecrets l) :
    ¬ (secretChars <:+: redactList l) := by
  have hnp : ∀ (x : Char) (t : List Char), x ≠ 'S' → secretChars <+: x :: t → False := by
    intro x t hx hpre
    rw [show secretChars = 'S' :: ['E', 'C', 'R', 'E', 'T', '1', '2', '3'] from rfl,
      List.cons_prefix_cons] at hpre
    exact hx hpre.1.symm
  have H : ∀ n (l : List Char), l.length ≤ n → onlyKeyedSecrets l →
      ¬ (secretChars <:+: redactList l) := by
    intro n
    induction n with
    | zero =>
      intro l hle hos hinf
      have hnil : l = [] := List.length_eq_zero.mp (by omega)
      subst hnil
      rw [redactList_nil] at hinf
      rw [List.infix_nil] at hinf
      exact (by decide : secretChars ≠ []) hinf
    | succ n ih =>
      intro l hle hos hinf
      cases l with
      | nil =>
        rw [redactList_nil] at hinf
        rw [List.infix_nil] at hinf
        exact (by decide : secretChars ≠ []) hinf
      | cons c cs =>
        by_cases hm : keyMatch (c :: cs) = true
        · rw [redactList_cons_match c cs hm] at hinf
          rcases List.infix_cons_iff.mp hinf with h | hinf
          · exact hnp _ _ (by decide) h
          rcases List.infix_cons_iff.mp hinf with h | hinf
          · exact hnp _ _ (by decide) h
          rcases List.infix_cons_iff.mp hinf with h | hinf
          · exact hnp _ _ (by decide) h
          rcases List.infix_cons_iff.mp hinf with h | hinf
          · exact hnp _ _ (by decide) h
          rcases List.infix_cons_iff.mp hinf with h | hinf
          · exact hnp _ _ (by decide) h
          rcases List.infix_cons_iff.mp hinf with h | hinf
          · exact hnp _ _ (by decide) h
          rcases List.infix_cons_iff.mp hinf with h | hinf
          · exact hnp _ _ (by decide) h
          have hrtw : ((cs.drop 3).dropWhile isValChar).takeWhile isValChar = [] :=
            takeWhile_dropWhile_nil _ _
          have hlen : ((cs.drop 3).dropWhile isValChar).length ≤ n := by
            have h1 := (List.dropWhile_sublist (l := cs.drop 3) isValChar).length_le
            simp [List.length_drop] at h1
            simp at hle
            omega
          apply ih ((cs.drop 3).dropWhile isValChar) hlen ?_ hinf
          intro i hi hocc
          have hsuf : (cs.drop 3).dropWhile isValChar <:+ (c :: cs) :=
            (List.dropWhile_suffix isValChar).trans
              ((List.drop_suffix 3 cs).trans (List.suffix_cons c cs))
          have heqd := List.suffix_iff_eq_drop.mp hsuf
          have hoccL : secretChars <+: (c :: cs).drop
              ((c :: cs).length - ((cs.drop 3).dropWhile isValChar).length + i) := by
            rw [← List.drop_drop, ← heqd]
            exact hocc
          have hb := secret_occ_lt hoccL
          have hL := hos _ (by omega) hoccL
          obtain ⟨h4, hkey⟩ := hL
          by_cases hi4 : 4 ≤ i
          · refine ⟨hi4, ?_⟩
            have hdq : ((cs.drop 3).dropWhile isValChar).drop (i - 4) =
                (c :: cs).drop ((c :: cs).length -
                  ((cs.drop 3).dropWhile isValChar).length + (i - 4)) := by
              conv_lhs => rw [heqd]
              rw [List.drop_drop]
            rw [hdq, show (c :: cs).length - ((cs.drop 3).dropWhile isValChar).length +
              (i - 4) = (c :: cs).length - ((cs.drop 3).dropWhile isValChar).length +
                i - 4 by omega]
            exact hkey
          · exfalso
            push_neg at hi4
            obtain ⟨tail, htail⟩ := hkey
            interval_cases i
            · rw [List.drop_zero] at hocc
              obtain ⟨t0, ht0⟩ := hocc
              rw [← ht0] at hrtw
              rw [show (secretChars ++ t0).takeWhile isValChar =
                'S' :: (['E', 'C', 'R', 'E', 'T', '1', '2', '3'] ++ t0).takeWhile isValChar
                from rfl] at hrtw
              exact absurd hrtw (by simp)
            · have h1 : (((c :: cs).drop ((c :: cs).length -
                  ((cs.drop 3).dropWhile isValChar).length + 1 - 4)).drop 3) =
                  (cs.drop 3).dropWhile isValChar := by
                rw [List.drop_drop, show (c :: cs).length -
                  ((cs.drop 3).dropWhile isValChar).length + 1 - 4 + 3 =
                  (c :: cs).length - ((cs.drop 3).dropWhile isValChar).length by omega]
                exact heqd.symm
              rw [← htail] at h1
              rw [show (['k', 'e', 'y', '='] ++ tail).drop 3 = '=' :: tail from rfl] at h1
              rw [← h1, List.takeWhile_cons, if_pos (by decide)] at hrtw
              exact absurd hrtw (by simp)
            · have h1 : (((c :: cs).drop ((c :: cs).length -
                  ((cs.drop 3).dropWhile isValChar).length + 2 - 4)).drop 2) =
                  (cs.drop 3).dropWhile isValChar := by
                rw [List.drop_drop, show (c :: cs).length -
                  ((cs.drop 3).dropWhile isValChar).length + 2 - 4 + 2 =
                  (c :: cs).length - ((cs.drop 3).dropWhile isValChar).length by omega]
                exact heqd.symm
              rw [← htail] at h1
              rw [show (['k', 'e', 'y', '='] ++ tail).drop 2 = 'y' :: '=' :: tail from rfl] at h1
              rw [← h1, List.takeWhile_cons, if_pos (by decide)] at hrtw
              exact absurd hrtw (by simp)
            · have h1 : (((c :: cs).drop ((c :: cs).length -
                  ((cs.drop 3).dropWhile isValChar).length + 3 - 4)).drop 1) =
                  (cs.drop 3).dropWhile isValChar := by
                rw [List.drop_drop, show (c :: cs).length -
                  ((cs.drop 3).dropWhile isValChar).length + 3 - 4 + 1 =
                  (c :: cs).length - ((cs.drop 3).dropWhile isValChar).length by omega]
                exact heqd.symm
              rw [← htail] at h1
              rw [show (['k', 'e', 'y', '='] ++ tail).drop 1 = 'e' :: 'y' :: '=' :: tail
                from rfl] at h1
              rw [← h1, List.takeWhile_cons, if_pos (by decide)] at hrtw
              exact absurd hrtw (by simp)
        · have hm' : keyMatch (c :: cs) = false := by simpa using hm
          rw [redactList_cons_nomatch c cs hm'] at hinf
          rcases List.infix_cons_iff.mp hinf with hpre | hinf2
          · rw [show secretChars = 'S' :: ['E', 'C', 'R', 'E', 'T', '1', '2', '3'] from rfl,
              List.cons_prefix_cons] at hpre
            obtain ⟨hcS, htail⟩ := hpre
            have htail2 : ['E', 'C', 'R', 'E', 'T', '1', '2', '3'] <+: cs :=
              redactList_prefix_starfree cs _ (by decide) htail
            have hpre2 : secretChars <+: (c :: cs).drop 0 := by
              rw [List.drop_zero,
                show secretChars = 'S' :: ['E', 'C', 'R', 'E', 'T', '1', '2', '3'] from rfl,
                List.cons_prefix_cons]
              exact ⟨hcS, htail2⟩
            have h0 := hos 0 (by simp) hpre2
            omega
          · apply ih cs (by simp at hle; omega) ?_ hinf2
            intro i hi hocc
            have hocc1 : secretChars <+: (c :: cs).drop (i + 1) := by
              rw [List.drop_succ_cons]
              exact hocc
            have h1 := hos (i + 1) (by simp; omega) hocc1
            obtain ⟨h4, hkey⟩ := h1
            by_cases hi3 : i = 3
            · exfalso
              subst hi3
              have hk4 : ['k', 'e', 'y', '='] <+: (c :: cs) := by simpa using hkey
              apply hm
              unfold keyMatch
              rw [Bool.and_eq_true]
              constructor
              · have hk4t : ['k', 'e', 'y', '='] = (c :: cs).take 4 :=
                  List.prefix_iff_eq_take.mp hk4
                show ((c :: cs).take 4 == ['k', 'e', 'y', '=']) = true
                rw [← hk4t]
                rfl
              · obtain ⟨t0, ht0⟩ := hocc
                show (!((cs.drop 3).takeWhile isValChar).isEmpty) = true
                rw [← ht0]
                rfl
            · refine ⟨by omega, ?_⟩
              have hd1 : (c :: cs).drop (i + 1 - 4) = cs.drop (i - 4) := by
                rw [show i + 1 - 4 = (i - 4) + 1 by omega, List.drop_succ_cons]
              rwa [hd1] at hkey
  exact H l.length l le_rfl hl

/-- Claim C7 counterexample: `redact` masks only `key=` values, so a URL that
contains `key=SECRET123` but also carries SECRET123 in another parameter still
contains the secret after redaction — the claim "for any URL containing
key=SECRET123 the output never contains SECRET123" is false as stated. -/
theorem redact_secret_leak_counterexample :
    ("key=SECRET123".data <:+: ("key=SECRET123&u=SECRET123" : String).data) ∧
    redact "key=SECRET123&u=SECRET123" = "key=***&u=SECRET123" ∧
    ("SECRET123".data <:+: (redact "key=SECRET123&u=SECRET123").data) := by
  refine ⟨by decide, rfl, by decide⟩

/-- Claim C7 (amended): the Redactor is a pure function with
`redact (redact s) = redact s` for all strings; any `key=<value>` substring
has its value replaced by the fixed mask and other content is unchanged; and
for any URL in which every occurrence of SECRET123 is immediately preceded by
`key=` (i.e. the secret occurs only as the value of a key parameter), the
output never contains SECRET123. -/
theorem redact_idempotent_and_masks :
    (∀ s : String, redact (redact s) = redact s) ∧
    (∀ s : String, onlyKeyedSecrets s.data → ¬ (secretChars <:+: (redact s).data)) := by
  constructor
  · intro s
    exact congrArg String.mk (redactList_idem s.data)
  · intro s hs
    exact redactList_no_secret s.data hs

/-- Concrete witness for the amended C7 at a URL whose only SECRET123
occurrence is the key value. -/
theorem redact_idempotent_and_masks_witness :
    redact (redact "https://x?key=SECRET123&for=c") =
      redact "https://x?key=SECRET123&for=c" ∧
    ¬ (secretChars <:+: (redact "https://x?key=SECRET123&for=c").data) :=
  ⟨redact_idempotent_and_masks.1 _, redact_idempotent_and_masks.2 _ (by decide)⟩
